import Mathlib

/-!
Verification of the payload-socket-plugin real-time event core.

Shallow embedding of the plugin's socket manager (src/src/socketManager.ts),
the plugin hook installation (socketPlugin in the plugin entry file) and the
example connection handlers, together with proofs of the behavioural claims
about authorization fan-out, room membership, presence deduplication and
error handling.

Modelling conventions:
* a Socket.IO socket is a record of its id, its optional authenticated user
  and the list of rooms it has joined (Socket.IO rooms form a set; the state
  invariant used below is that the room list has no duplicates);
* asynchronous authorization handlers are modelled as pure boolean
  functions, and external document-store lookups as functions packaged in a
  `Store` record, re-read on every call exactly as the handlers re-query
  Payload on every call;
* every `socket.emit` / `io.emit` / `socket.to(room).emit` performed by a
  handler is collected in an output list of `Emission` values, and the
  handler returns the updated socket list together with that output.
-/

set_option autoImplicit false

namespace PayloadSocket

/-- Event types of the plugin: create, update, delete. -/
inductive EventType where
  | create
  | update
  | delete
deriving DecidableEq, Repr

/-- The user record embedded in an event payload (id, optional email,
optional originating collection). -/
structure EventUser where
  id : String
  email : Option String
  collection : Option String
deriving DecidableEq, Repr

/-- RealtimeEventPayload from src/src/types.ts: type, collection slug,
document id, optional document data, optional triggering user, timestamp. -/
structure RealtimeEventPayload where
  type : EventType
  collection : String
  id : Option String
  doc : Option String
  user : Option EventUser
  timestamp : String
deriving DecidableEq, Repr

/-- The authenticated user attached to a socket by the authentication
middleware (id, email, collection, role). -/
structure SMUser where
  id : String
  email : Option String
  collection : Option String
  role : Option String
deriving DecidableEq, Repr

/-- A connected socket: its id, the optional authenticated user attached to
it, and the rooms it is currently a member of. -/
structure SMSocket where
  sid : String
  user : Option SMUser
  rooms : List String
deriving DecidableEq, Repr

/-- The plugin options consumed by emitEvent: the per-collection
authorization handler map, the optional global filter and the optional
global transform. -/
structure PluginOptions where
  authorize : Option (List (String × (SMUser → RealtimeEventPayload → Bool)))
  shouldEmit : Option (RealtimeEventPayload → Bool)
  transformEvent : Option (RealtimeEventPayload → RealtimeEventPayload)

/-- The target of a single emit call: a single socket, a whole room
(io.to(room)), a room minus the sending socket (socket.to(room)), or every
connected client (io.emit). -/
inductive EmitTarget where
  | socket (sid : String)
  | room (name : String)
  | roomExcept (name : String) (sid : String)
  | all
deriving DecidableEq, Repr

/-- An active-user entry sent in a presence list: id and optional email. -/
structure ActiveUser where
  id : String
  email : Option String
deriving DecidableEq, Repr

/-- The JSON payload carried by one emitted message. -/
inductive EmitPayload where
  | event (e : RealtimeEventPayload)
  | activeUsers (us : List ActiveUser)
  | userJoined (u : ActiveUser)
  | userLeft (uid : String)
  | kickedFromProject (projectId : String) (msg : String)
  | errMsg (msg : String)
  | kickSuccess (uid : String)
deriving DecidableEq, Repr

/-- One emitted message: target, event name, payload. -/
structure Emission where
  target : EmitTarget
  name : String
  payload : EmitPayload
deriving DecidableEq, Repr

/-- Room membership test (socket.rooms.has(room)). -/
def inRoom (room : String) (s : SMSocket) : Bool :=
  decide (room ∈ s.rooms)

/-- The shouldEmit check of emitEvent: when no filter is configured the
event passes. -/
def applyShouldEmit (opts : PluginOptions) (event : RealtimeEventPayload) : Bool :=
  match opts.shouldEmit with
  | some f => f event
  | none => true

/-- The transformEvent step of emitEvent: identity when no transformer is
configured. -/
def applyTransform (opts : PluginOptions) (event : RealtimeEventPayload) :
    RealtimeEventPayload :=
  match opts.transformEvent with
  | some f => f event
  | none => event

/-- Association-list lookup of the authorization handler registered for a
collection slug (authorize[event.collection]). -/
def lookupHandler (handlers : List (String × (SMUser → RealtimeEventPayload → Bool)))
    (slug : String) : Option (SMUser → RealtimeEventPayload → Bool) :=
  match handlers with
  | [] => none
  | (k, h) :: rest => if k = slug then some h else lookupHandler rest slug

/-- SocketIOManager.emitEvent: apply the optional global filter, apply the
optional transform, then emit "payload:event" to the collection room —
per-socket through the per-collection authorization handler when an
authorize map is configured (denying everything when the map has no handler
for the collection), as a plain room broadcast otherwise — and finally emit
the transformed event to everyone as "payload:event:all". The room name and
the handler lookup use the original (untransformed) event's collection. -/
def emitEvent (opts : PluginOptions) (sockets : List SMSocket)
    (event : RealtimeEventPayload) : List Emission :=
  if applyShouldEmit opts event then
    let finalEvent := applyTransform opts event
    let room := "collection:" ++ event.collection
    let roomEmissions :=
      match opts.authorize with
      | some handlers =>
        match lookupHandler handlers event.collection with
        | some h =>
          (sockets.filter (inRoom room)).filterMap fun s =>
            match s.user with
            | some u =>
              if h u finalEvent then
                some ⟨EmitTarget.socket s.sid, "payload:event", EmitPayload.event finalEvent⟩
              else none
            | none => none
        | none => []
      | none =>
        [⟨EmitTarget.room room, "payload:event", EmitPayload.event finalEvent⟩]
    roomEmissions ++ [⟨EmitTarget.all, "payload:event:all", EmitPayload.event finalEvent⟩]
  else []

/-- The external document store consulted by the connection handlers:
`projectOwner p` is the owner id of project `p` (none when payload.findByID
throws, e.g. project not found), and `hasAcceptedEditorInvite u p` is true
when the projectInvitations query for (user u, project p, status accepted,
role editor) returns at least one document. -/
structure Store where
  projectOwner : String → Option String
  hasAcceptedEditorInvite : String → String → Bool

/-- Name of the collaboration room of a project (socketManager.ts). -/
def projectRoom (projectId : String) : String :=
  "project:" ++ projectId ++ ":room"

/-- socket.join(room): adds the room to the socket with the given id;
Socket.IO rooms are a set, so joining a room already joined is a no-op. -/
def joinSocketToRoom (sockets : List SMSocket) (sid room : String) : List SMSocket :=
  sockets.map fun s =>
    if s.sid = sid then
      if room ∈ s.rooms then s else { s with rooms := s.rooms ++ [room] }
    else s

/-- One step of building the JavaScript Map keyed by user id in the
join-project handler: setting an existing key overwrites its value in
place, a new key is appended. -/
def mapUpsert (acc : List (String × ActiveUser)) (u : ActiveUser) :
    List (String × ActiveUser) :=
  if u.id ∈ acc.map Prod.fst then
    acc.map fun p => if p.1 = u.id then (p.1, u) else p
  else acc ++ [(u.id, u)]

/-- new Map(activeUsers.map((u) => [u.id, u])): fold the entries into the
id-keyed map. -/
def jsMapOfUsers (us : List ActiveUser) : List (String × ActiveUser) :=
  us.foldl mapUpsert []

/-- uniqueUsers = Array.from(new Map(activeUsers.map((u) => [u.id, u])).values()):
deduplicate the active-user list by user id. -/
def dedupById (us : List ActiveUser) : List ActiveUser :=
  (jsMapOfUsers us).map Prod.snd

/-- The active-user entries of the sockets currently in a room: sockets
whose user is set contribute (id, email); the rest are filtered out. -/
def roomActiveUsers (sockets : List SMSocket) (room : String) : List ActiveUser :=
  (sockets.filter (inRoom room)).filterMap fun s =>
    s.user.map fun u => ⟨u.id, u.email⟩

/-- The join-project handler of socketManager.ts. An empty projectId is
rejected with only a server-side warning (no emission). Otherwise the
handler re-reads the project owner and the editor invitation from the
store; a store failure or a caller that is neither owner nor invited editor
produces a join-project-error emission and leaves membership unchanged. On
success the caller joins the project room, receives the deduplicated
active-user list of the room (fetched after the join, so including itself),
and the other room members are notified project:user-joined. -/
def joinProject (store : Store) (sockets : List SMSocket) (callerSid : String)
    (callerUser : SMUser) (projectId : String) :
    List SMSocket × List Emission :=
  if projectId = "" then (sockets, [])
  else
    match store.projectOwner projectId with
    | none =>
      (sockets,
        [⟨EmitTarget.socket callerSid, "join-project-error",
          EmitPayload.errMsg "Failed to verify project permissions"⟩])
    | some ownerId =>
      let isOwner := callerUser.id = ownerId
      let hasEditorInvite := store.hasAcceptedEditorInvite callerUser.id projectId
      if ¬ isOwner ∧ ¬ hasEditorInvite then
        (sockets,
          [⟨EmitTarget.socket callerSid, "join-project-error",
            EmitPayload.errMsg "You need editor access to join this project room"⟩])
      else
        let roomName := projectRoom projectId
        let sockets2 := joinSocketToRoom sockets callerSid roomName
        let uniqueUsers := dedupById (roomActiveUsers sockets2 roomName)
        (sockets2,
          [⟨EmitTarget.socket callerSid, "project:active-users",
            EmitPayload.activeUsers uniqueUsers⟩,
           ⟨EmitTarget.roomExcept roomName callerSid, "project:user-joined",
            EmitPayload.userJoined ⟨callerUser.id, callerUser.email⟩⟩])

/-- Does a fetched socket belong to the user being kicked
(socketUser && socketUser.id === userId)? -/
def isKickTarget (userId : String) (s : SMSocket) : Bool :=
  match s.user with
  | some u => decide (u.id = userId)
  | none => false

/-- The sockets of the kicked user currently in the room. -/
def kickTargets (sockets : List SMSocket) (roomName userId : String) :
    List SMSocket :=
  (sockets.filter (inRoom roomName)).filter (isKickTarget userId)

/-- The kick-user handler of socketManager.ts. Missing projectId or userId:
only a server-side warning, no emission, no state change. Store failure on
the project lookup: kick-error. Caller not the owner (re-read from the
store): kick-error, membership unchanged. Owner: every socket in the
project room whose user id equals the target receives kicked-from-project
and leaves the room; if at least one was found the other room members
receive project:user-left and the caller kick-success, otherwise the caller
receives kick-error (user not found in project). -/
def kickUser (store : Store) (sockets : List SMSocket) (callerSid : String)
    (callerUser : SMUser) (projectId userId : String) :
    List SMSocket × List Emission :=
  if projectId = "" ∨ userId = "" then (sockets, [])
  else
    match store.projectOwner projectId with
    | none =>
      (sockets,
        [⟨EmitTarget.socket callerSid, "kick-error",
          EmitPayload.errMsg "Failed to kick user"⟩])
    | some ownerId =>
      if callerUser.id ≠ ownerId then
        (sockets,
          [⟨EmitTarget.socket callerSid, "kick-error",
            EmitPayload.errMsg "Only the project owner can kick users"⟩])
      else
        let roomName := projectRoom projectId
        let targets := kickTargets sockets roomName userId
        let kickEmissions := targets.map fun s =>
          (⟨EmitTarget.socket s.sid, "kicked-from-project",
            EmitPayload.kickedFromProject projectId
              "You have been removed from this project by the owner"⟩ : Emission)
        if targets ≠ [] then
          let newSockets := sockets.map fun s =>
            if inRoom roomName s ∧ isKickTarget userId s then
              { s with rooms := s.rooms.erase roomName }
            else s
          (newSockets,
            kickEmissions ++
              [⟨EmitTarget.roomExcept roomName callerSid, "project:user-left",
                EmitPayload.userLeft userId⟩,
               ⟨EmitTarget.socket callerSid, "kick-success",
                EmitPayload.kickSuccess userId⟩])
        else
          (sockets,
            [⟨EmitTarget.socket callerSid, "kick-error",
              EmitPayload.errMsg "User not found in project"⟩])

/-- The arguments a Payload collection hook receives, restricted to the
fields the plugin reads: args.doc.id, args.id, args.doc, args.req.user and
args.operation. -/
structure HookArgs where
  docId : Option String
  topId : Option String
  doc : Option String
  reqUser : Option EventUser
  operation : String
deriving DecidableEq, Repr

/-- createEventPayload of the plugin entry file: id is args.doc.id when
present, else args.id; doc is omitted for deletes; user is taken from
args.req.user; the timestamp is taken at emission time. -/
def createEventPayload (type : EventType) (collection : String)
    (args : HookArgs) (now : String) : RealtimeEventPayload :=
  { type := type
    collection := collection
    id := args.docId.orElse fun _ => args.topId
    doc := if type = EventType.delete then none else args.doc
    user := args.reqUser
    timestamp := now }

/-- The afterChange hook installed by the plugin: it emits one update event
when args.operation is "update" and emits nothing for any other operation
(in particular "create"). -/
def afterChangeHook (slug : String) (args : HookArgs) (now : String) :
    Option RealtimeEventPayload :=
  if args.operation ≠ "update" then none
  else some (createEventPayload EventType.update slug args now)

/-- The afterDelete hook installed by the plugin: it always emits one
delete event. -/
def afterDeleteHook (slug : String) (args : HookArgs) (now : String) :
    RealtimeEventPayload :=
  createEventPayload EventType.delete slug args now

/-- A hook entry on a collection config: either a hook the host config
already carried (tagged by position) or one of the two hooks the plugin
appends. -/
inductive Hook where
  | original (tag : Nat)
  | pluginAfterChange (slug : String)
  | pluginAfterDelete (slug : String)
deriving DecidableEq, Repr

/-- A collection config, restricted to what the plugin touches: the slug
and the two hook arrays. -/
structure CollectionConfig where
  slug : String
  afterChange : List Hook
  afterDelete : List Hook
deriving DecidableEq, Repr

/-- shouldEmitForCollection of the plugin entry file: with a non-empty
includeCollections list, membership decides; with an absent or empty list
no collection emits. -/
def shouldEmitForCollection (includeCollections : Option (List String))
    (slug : String) : Bool :=
  match includeCollections with
  | some l => if l.length > 0 then decide (slug ∈ l) else false
  | none => false

/-- collectionsWithHooks of the plugin entry file: collections for which
shouldEmitForCollection is false are returned unchanged; the others get the
plugin afterChange and afterDelete hooks appended after the existing
ones. -/
def collectionsWithHooks (includeCollections : Option (List String))
    (collections : List CollectionConfig) : List CollectionConfig :=
  collections.map fun c =>
    if shouldEmitForCollection includeCollections c.slug then
      { c with
        afterChange := c.afterChange ++ [Hook.pluginAfterChange c.slug]
        afterDelete := c.afterDelete ++ [Hook.pluginAfterDelete c.slug] }
    else c

/-- Severity of a logger call. -/
inductive LogLevel where
  | info
  | warn
  | error
deriving DecidableEq, Repr

/-- One logger call: severity and message. -/
structure LogEntry where
  level : LogLevel
  msg : String
deriving DecidableEq, Repr

/-- SocketIOManager.setupRedisAdapter: without a configured REDIS_URL it
logs a warning and returns normally (no adapter); with a URL, the outcome
of creating the two Redis clients, awaiting readiness and installing the
adapter is abstracted as `adapterSetup` — on success an info line is
logged, on a thrown error the handler logs at error level and rethrows. -/
def setupRedisAdapter (redisUrl : Option String)
    (adapterSetup : Except String Unit) : List LogEntry × Except String Unit :=
  match redisUrl with
  | none =>
    ([⟨LogLevel.warn, "REDIS_URL not configured. Skipping Redis adapter setup."⟩],
     Except.ok ())
  | some _ =>
    match adapterSetup with
    | Except.ok _ =>
      ([⟨LogLevel.info, "Redis adapter configured for Socket.IO multi-instance support"⟩],
       Except.ok ())
    | Except.error e =>
      ([⟨LogLevel.error, "Failed to setup Redis adapter:"⟩], Except.error e)

/-- SocketIOManager.init: when the redis option is present it awaits
setupRedisAdapter without catching, so a rethrown adapter error propagates
out of init; otherwise (or on adapter success) init finishes and logs the
startup info line. -/
def initManager (redisConfigured : Bool) (redisUrl : Option String)
    (adapterSetup : Except String Unit) : List LogEntry × Except String Unit :=
  if redisConfigured then
    match setupRedisAdapter redisUrl adapterSetup with
    | (logs, Except.error e) => (logs, Except.error e)
    | (logs, Except.ok _) =>
      (logs ++ [⟨LogLevel.info, "Socket.IO server initialized with real-time events plugin"⟩],
       Except.ok ())
  else
    ([⟨LogLevel.info, "Socket.IO server initialized with real-time events plugin"⟩],
     Except.ok ())

/-- Name of the per-user notification room used by the example
notification handlers. -/
def identityRoom (userId : String) : String :=
  "user:" ++ userId ++ ":notifications"

/-- The rooms the core connection handler of socketManager.ts joins a
socket to at connect time, before any client-initiated request: the handler
body only logs and registers the subscribe / unsubscribe / join-collection /
join-project / leave-project / kick-user / disconnect listeners, and
performs no socket.join. -/
def coreConnectJoins (_u : SMUser) : List String := []

/-- Connect-time join performed by the example notificationHandlers (run
only when the host registers it through the onSocketConnection option):
socket.join of the per-user notification room. -/
def notificationHandlersConnectJoin (u : SMUser) : String :=
  identityRoom u.id

/-- The rooms a socket is joined to at connect time, before any
client-initiated request: whatever the core does (nothing) plus whatever
the host-registered onSocketConnection handler does, if one is
configured. -/
def connectJoins (onSocketConnection : Option (SMUser → List String))
    (u : SMUser) : List String :=
  coreConnectJoins u ++
    (match onSocketConnection with
     | some f => f u
     | none => [])

/-! Concrete instances used by witnesses and counterexamples. -/

/-- A store where project p1 is owned by alice and no editor invitation is
accepted. -/
def exStore : Store :=
  ⟨fun p => if p = "p1" then some "alice" else none, fun _ _ => false⟩

/-- A store where project p1 is owned by alice and bob holds an accepted
editor invitation for p1. -/
def exStoreInvite : Store :=
  ⟨fun p => if p = "p1" then some "alice" else none,
   fun u p => u = "bob" ∧ p = "p1"⟩

/-- User alice. -/
def exAlice : SMUser := ⟨"alice", some "alice@example.com", none, none⟩

/-- User bob. -/
def exBob : SMUser := ⟨"bob", some "bob@example.com", none, none⟩

/-- A socket of alice, inside the p1 project room. -/
def exAliceSocket : SMSocket := ⟨"s1", some exAlice, [projectRoom "p1"]⟩

/-- A first socket of bob, inside the p1 project room. -/
def exBobSocket : SMSocket := ⟨"s2", some exBob, [projectRoom "p1"]⟩

/-- A second socket of bob (another tab), inside the p1 project room. -/
def exBobSocket2 : SMSocket := ⟨"s3", some exBob, [projectRoom "p1"]⟩

/-- A socket of alice subscribed to the posts collection room. -/
def exPostsSocket : SMSocket := ⟨"s9", some exAlice, ["collection:posts"]⟩

/-- Options with an authorize map that has a handler for the comments
collection only. -/
def exOptsOther : PluginOptions :=
  ⟨some [("comments", fun _ _ => true)], none, none⟩

/-- A posts update event. -/
def exEvent : RealtimeEventPayload :=
  ⟨EventType.update, "posts", some "d1", some "docbody", none, "t0"⟩

/-! Helper lemmas about the id-keyed map used for presence deduplication. -/

theorem mapUpsert_keys (acc : List (String × ActiveUser)) (u : ActiveUser) :
    (mapUpsert acc u).map Prod.fst =
      if u.id ∈ acc.map Prod.fst then acc.map Prod.fst
      else acc.map Prod.fst ++ [u.id] := by
  unfold mapUpsert
  split
  · rw [List.map_map]
    apply List.map_congr_left
    intro p _
    by_cases h : p.1 = u.id <;> simp [h]
  · simp

theorem foldl_mapUpsert_keys_nodup (us : List ActiveUser)
    (acc : List (String × ActiveUser)) (h : (acc.map Prod.fst).Nodup) :
    ((us.foldl mapUpsert acc).map Prod.fst).Nodup := by
  induction us generalizing acc with
  | nil => exact h
  | cons u rest ih =>
    simp only [List.foldl_cons]
    apply ih
    rw [mapUpsert_keys]
    split
    · exact h
    · simp only [List.nodup_append, List.nodup_cons, List.nodup_nil]
      refine ⟨h, by simp, ?_⟩
      intro a ha
      simp only [List.mem_singleton]
      intro heq
      subst heq
      exact absurd ha (by assumption)

theorem foldl_mapUpsert_keys_mem (us : List ActiveUser)
    (acc : List (String × ActiveUser)) (i : String) :
    i ∈ (us.foldl mapUpsert acc).map Prod.fst ↔
      i ∈ acc.map Prod.fst ∨ i ∈ us.map ActiveUser.id := by
  induction us generalizing acc with
  | nil => simp
  | cons u rest ih =>
    simp only [List.foldl_cons, ih, mapUpsert_keys, List.map_cons, List.mem_cons]
    split
    · rename_i hmem
      constructor
      · rintro (ha | hb)
        · exact Or.inl ha
        · exact Or.inr (Or.inr hb)
      · rintro (ha | rfl | hb)
        · exact Or.inl ha
        · exact Or.inl hmem
        · exact Or.inr hb
    · simp only [List.mem_append, List.mem_singleton]
      tauto

theorem mapUpsert_kv (acc : List (String × ActiveUser)) (u : ActiveUser)
    (h : ∀ p ∈ acc, p.1 = p.2.id) :
    ∀ p ∈ mapUpsert acc u, p.1 = p.2.id := by
  unfold mapUpsert
  split
  · intro p hp
    rcases List.mem_map.mp hp with ⟨q, hq, rfl⟩
    by_cases hqe : q.1 = u.id
    · simp only [if_pos hqe]
      exact hqe
    · simp only [if_neg hqe]
      exact h q hq
  · intro p hp
    rcases List.mem_append.mp hp with hl | hr
    · exact h p hl
    · rcases List.mem_singleton.mp hr with rfl
      rfl

theorem foldl_mapUpsert_kv (us : List ActiveUser)
    (acc : List (String × ActiveUser)) (h : ∀ p ∈ acc, p.1 = p.2.id) :
    ∀ p ∈ us.foldl mapUpsert acc, p.1 = p.2.id := by
  induction us generalizing acc with
  | nil => exact h
  | cons u rest ih =>
    simp only [List.foldl_cons]
    exact ih (mapUpsert acc u) (mapUpsert_kv acc u h)

theorem dedupById_ids_eq_keys (us : List ActiveUser) :
    (dedupById us).map ActiveUser.id = (jsMapOfUsers us).map Prod.fst := by
  unfold dedupById
  rw [List.map_map]
  apply List.map_congr_left
  intro p hp
  exact (foldl_mapUpsert_kv us [] (by simp) p hp).symm

theorem dedupById_ids_nodup (us : List ActiveUser) :
    ((dedupById us).map ActiveUser.id).Nodup := by
  rw [dedupById_ids_eq_keys]
  exact foldl_mapUpsert_keys_nodup us [] (by simp)

theorem dedupById_ids_mem (us : List ActiveUser) (i : String) :
    i ∈ (dedupById us).map ActiveUser.id ↔ i ∈ us.map ActiveUser.id := by
  rw [dedupById_ids_eq_keys]
  simpa using foldl_mapUpsert_keys_mem us [] i

/-- C1: when an authorize map is configured and non-empty but has no
handler for the event's collection, emitEvent delivers the room-targeted
"payload:event" message to nobody: no emission carrying that event name is
produced at all, so delivery in the collection room is denied for everyone
(fail-closed). -/
theorem emitEvent_fail_closed (opts : PluginOptions) (sockets : List SMSocket)
    (event : RealtimeEventPayload)
    (handlers : List (String × (SMUser → RealtimeEventPayload → Bool)))
    (hauth : opts.authorize = some handlers) (_hne : handlers ≠ [])
    (hno : lookupHandler handlers event.collection = none) :
    ∀ em ∈ emitEvent opts sockets event, em.name ≠ "payload:event" := by
  intro em hem
  unfold emitEvent at hem
  by_cases hse : applyShouldEmit opts event
  · simp only [hse, if_true, hauth, hno, List.nil_append, List.mem_singleton] at hem
    subst hem
    simp
  · simp [hse] at hem

/-- Witness for C1 at a concrete input: an authorize map with a handler for
the comments collection only, a posts update event and one socket in the
posts collection room; the single emission actually produced (the global
broadcast) is not a room-targeted "payload:event" message. -/
theorem emitEvent_fail_closed_witness :
    (⟨EmitTarget.all, "payload:event:all",
      EmitPayload.event exEvent⟩ : Emission).name ≠ "payload:event" :=
  emitEvent_fail_closed exOptsOther [exPostsSocket] exEvent
    [("comments", fun _ _ => true)] rfl (List.cons_ne_nil _ _) rfl
    ⟨EmitTarget.all, "payload:event:all", EmitPayload.event exEvent⟩ (by decide)

/-- C9: for every event that passes the global filter, emitEvent emits the
transformed event on the global broadcast channel "payload:event:all" to
all connected clients, regardless of the authorize configuration and of
whether any room-targeted delivery happened. -/
theorem emitEvent_global_broadcast (opts : PluginOptions)
    (sockets : List SMSocket) (event : RealtimeEventPayload)
    (h : applyShouldEmit opts event = true) :
    (⟨EmitTarget.all, "payload:event:all",
      EmitPayload.event (applyTransform opts event)⟩ : Emission) ∈
      emitEvent opts sockets event := by
  unfold emitEvent
  simp only [h, if_true, List.mem_append, List.mem_singleton]
  exact Or.inr trivial

/-- Witness for C9 at a concrete input: the fail-closed configuration of
the C1 witness still produces the global broadcast emission. -/
theorem emitEvent_global_broadcast_witness :
    (⟨EmitTarget.all, "payload:event:all",
      EmitPayload.event (applyTransform exOptsOther exEvent)⟩ : Emission) ∈
      emitEvent exOptsOther [exPostsSocket] exEvent :=
  emitEvent_global_broadcast exOptsOther [exPostsSocket] exEvent rfl

/-- C3: a join-project call whose permission check fails (the caller is
neither the project owner nor holder of an accepted editor invitation)
emits exactly one join-project-error event back to the caller and leaves
every room membership exactly as it was before the call. -/
theorem joinProject_denied_no_mutation (store : Store)
    (sockets : List SMSocket) (callerSid : String) (callerUser : SMUser)
    (pid ownerId : String) (hpid : pid ≠ "")
    (hown : store.projectOwner pid = some ownerId)
    (hnotOwner : callerUser.id ≠ ownerId)
    (hnoInvite : store.hasAcceptedEditorInvite callerUser.id pid = false) :
    joinProject store sockets callerSid callerUser pid =
      (sockets,
        [⟨EmitTarget.socket callerSid, "join-project-error",
          EmitPayload.errMsg "You need editor access to join this project room"⟩]) := by
  unfold joinProject
  simp only [if_neg hpid, hown]
  rw [if_pos ⟨hnotOwner, by simp [hnoInvite]⟩]

/-- Witness for C3 at a concrete input: bob (not the owner of p1, no
invitation in exStore) is denied and the socket list is unchanged. -/
theorem joinProject_denied_no_mutation_witness :
    joinProject exStore [exAliceSocket] "s2" exBob "p1" =
      ([exAliceSocket],
        [⟨EmitTarget.socket "s2", "join-project-error",
          EmitPayload.errMsg "You need editor access to join this project room"⟩]) :=
  joinProject_denied_no_mutation exStore [exAliceSocket] "s2" exBob "p1"
    "alice" (by decide) (by decide) (by decide) (by decide)

/-- C5: the plugin hooks never emit on create — afterChange returns no
event unless the operation is "update" — while an update produces exactly
one event of type update and a delete always produces exactly one event of
type delete. -/
theorem hooks_emission_rule (slug : String) (args : HookArgs) (now : String) :
    (args.operation = "create" → afterChangeHook slug args now = none) ∧
    (args.operation = "update" →
      afterChangeHook slug args now =
        some (createEventPayload EventType.update slug args now) ∧
      (createEventPayload EventType.update slug args now).type = EventType.update) ∧
    (afterDeleteHook slug args now).type = EventType.delete := by
  refine ⟨?_, ?_, ?_⟩
  · intro h
    unfold afterChangeHook
    rw [if_pos]
    rw [h]
    decide
  · intro h
    unfold afterChangeHook
    rw [if_neg (by simp [h])]
    exact ⟨rfl, rfl⟩
  · rfl

/-- Witness for C5 at a concrete input: hook arguments for a create and an
update operation on the posts collection. -/
theorem hooks_emission_rule_witness :
    afterChangeHook "posts" ⟨some "d1", none, some "body", none, "create"⟩ "t0" = none ∧
    afterChangeHook "posts" ⟨some "d1", none, some "body", none, "update"⟩ "t0" =
      some (createEventPayload EventType.update "posts"
        ⟨some "d1", none, some "body", none, "update"⟩ "t0") ∧
    (afterDeleteHook "posts" ⟨some "d1", none, some "body", none, "delete"⟩ "t0").type =
      EventType.delete :=
  ⟨(hooks_emission_rule "posts" ⟨some "d1", none, some "body", none, "create"⟩ "t0").1 rfl,
   ((hooks_emission_rule "posts" ⟨some "d1", none, some "body", none, "update"⟩ "t0").2.1 rfl).1,
   (hooks_emission_rule "posts" ⟨some "d1", none, some "body", none, "delete"⟩ "t0").2.2⟩

/-- C4: every successful join-project call sends the joining connection an
active-user list that is deduplicated by identity id — the list has at most
one entry per id, and every identity with at least one (hence also with two
or more) connections in the room contributes exactly one entry. -/
theorem joinProject_success_dedup (store : Store) (sockets : List SMSocket)
    (callerSid : String) (callerUser : SMUser) (pid ownerId : String)
    (hpid : pid ≠ "") (hown : store.projectOwner pid = some ownerId)
    (hperm : callerUser.id = ownerId ∨
      store.hasAcceptedEditorInvite callerUser.id pid = true) :
    ∃ us : List ActiveUser,
      (joinProject store sockets callerSid callerUser pid).2 =
        [⟨EmitTarget.socket callerSid, "project:active-users",
          EmitPayload.activeUsers us⟩,
         ⟨EmitTarget.roomExcept (projectRoom pid) callerSid, "project:user-joined",
          EmitPayload.userJoined ⟨callerUser.id, callerUser.email⟩⟩] ∧
      (∀ i, (us.map ActiveUser.id).count i ≤ 1) ∧
      (∀ i, i ∈ (roomActiveUsers
            (joinSocketToRoom sockets callerSid (projectRoom pid))
            (projectRoom pid)).map ActiveUser.id →
          (us.map ActiveUser.id).count i = 1) := by
  refine ⟨dedupById (roomActiveUsers
    (joinSocketToRoom sockets callerSid (projectRoom pid)) (projectRoom pid)),
    ?_, ?_, ?_⟩
  · unfold joinProject
    simp only [if_neg hpid, hown]
    rw [if_neg]
    rcases hperm with h | h
    · exact fun hc => hc.1 h
    · exact fun hc => hc.2 (by simp [h])
  · intro i
    exact List.nodup_iff_count_le_one.mp (dedupById_ids_nodup _) i
  · intro i him
    have h1 := List.nodup_iff_count_le_one.mp (dedupById_ids_nodup
      (roomActiveUsers (joinSocketToRoom sockets callerSid (projectRoom pid))
        (projectRoom pid))) i
    have h2 : i ∈ (dedupById (roomActiveUsers
        (joinSocketToRoom sockets callerSid (projectRoom pid))
        (projectRoom pid))).map ActiveUser.id :=
      (dedupById_ids_mem _ i).mpr him
    have h3 := List.count_pos_iff.mpr h2
    omega

/-- Witness for C4 at a concrete input: bob, holder of an accepted editor
invitation to p1 in exStoreInvite, joins from a second tab while both his
first tab and alice are in the room; the emitted list has one entry per
id. -/
theorem joinProject_success_dedup_witness :
    ∃ us : List ActiveUser,
      (joinProject exStoreInvite [exAliceSocket, exBobSocket, exBobSocket2]
        "s3" exBob "p1").2 =
        [⟨EmitTarget.socket "s3", "project:active-users",
          EmitPayload.activeUsers us⟩,
         ⟨EmitTarget.roomExcept (projectRoom "p1") "s3", "project:user-joined",
          EmitPayload.userJoined ⟨exBob.id, exBob.email⟩⟩] ∧
      (∀ i, (us.map ActiveUser.id).count i ≤ 1) ∧
      (∀ i, i ∈ (roomActiveUsers
            (joinSocketToRoom [exAliceSocket, exBobSocket, exBobSocket2] "s3"
              (projectRoom "p1"))
            (projectRoom "p1")).map ActiveUser.id →
          (us.map ActiveUser.id).count i = 1) :=
  joinProject_success_dedup exStoreInvite
    [exAliceSocket, exBobSocket, exBobSocket2] "s3" exBob "p1" "alice"
    (by decide) (by decide) (Or.inr (by decide))

/-- C6 counterexample: with the redis option present, a configured broker
URL and a failing adapter setup, init propagates the failure (the result is
an error, a startup failure) and the only log line is at error level, not a
warning — refuting the claim that initialization always completes with at
most a logged warning. -/
theorem initManager_failure_counterexample :
    (initManager true (some "redis://broker:6379") (Except.error "connect failed")).2 =
      Except.error "connect failed" ∧
    ∀ log ∈ (initManager true (some "redis://broker:6379")
        (Except.error "connect failed")).1,
      log.level ≠ LogLevel.warn := by
  refine ⟨rfl, ?_⟩
  decide

/-- C6 amended: with the redis option present, a missing broker URL makes
init complete successfully with a logged warning (local-only fanout), a
successful adapter setup makes init complete successfully, but a failing
adapter setup is logged at error level and the error is rethrown out of
init — a propagated startup failure. -/
theorem initManager_broker_behavior :
    (∀ adapterSetup : Except String Unit,
      initManager true none adapterSetup =
        ([⟨LogLevel.warn, "REDIS_URL not configured. Skipping Redis adapter setup."⟩,
          ⟨LogLevel.info, "Socket.IO server initialized with real-time events plugin"⟩],
         Except.ok ())) ∧
    (∀ url : String,
      initManager true (some url) (Except.ok ()) =
        ([⟨LogLevel.info, "Redis adapter configured for Socket.IO multi-instance support"⟩,
          ⟨LogLevel.info, "Socket.IO server initialized with real-time events plugin"⟩],
         Except.ok ())) ∧
    (∀ (url e : String),
      initManager true (some url) (Except.error e) =
        ([⟨LogLevel.error, "Failed to setup Redis adapter:"⟩], Except.error e)) := by
  refine ⟨?_, ?_, ?_⟩
  · intro adapterSetup
    rfl
  · intro url
    rfl
  · intro url e
    rfl

/-- C7 counterexample: a connection of user u1 that passed handshake
authentication is joined to no room by the core connection handler — in
particular not to its identity room user:u1:notifications — refuting the
claim that the core auto-joins the identity room at connect time. -/
theorem coreConnectJoins_counterexample :
    connectJoins none ⟨"u1", some "u1@example.com", none, none⟩ = [] ∧
    identityRoom "u1" ∉ connectJoins none ⟨"u1", some "u1@example.com", none, none⟩ := by
  decide

/-- C7 amended: the core connection handler joins a freshly authenticated
connection to no room; the identity room user:(id):notifications is joined
at connect time only when the host registers a handler through the
onSocketConnection option that performs the join, as the example
notificationHandlers does. -/
theorem connectJoins_identity_room (u : SMUser) :
    connectJoins none u = [] ∧
    connectJoins (some fun v => [notificationHandlersConnectJoin v]) u =
      ["user:" ++ u.id ++ ":notifications"] := by
  constructor
  · rfl
  · rfl

/-- C8 counterexample: a join-project call with an empty projectId and a
kick-user call with an empty userId produce no emission at all — the caller
receives no error event — refuting the claim that a missing required field
is surfaced as a generic error event to the caller. -/
theorem missing_field_silent_counterexample :
    (joinProject exStore [exAliceSocket] "s1" exAlice "").2 = [] ∧
    (kickUser exStore [exAliceSocket] "s1" exAlice "p1" "").2 = [] := by
  decide

/-- C8 amended: a client-initiated room action that omits a required field
(join-project with an empty projectId; kick-user with an empty projectId or
userId) is silently ignored: the caller receives no event and no room
membership or other state is mutated (the server only logs a warning). -/
theorem missing_field_no_event_no_mutation (store : Store)
    (sockets : List SMSocket) (sid : String) (u : SMUser) (pid uid : String) :
    joinProject store sockets sid u "" = (sockets, []) ∧
    (pid = "" ∨ uid = "" →
      kickUser store sockets sid u pid uid = (sockets, [])) := by
  constructor
  · rfl
  · intro h
    unfold kickUser
    rw [if_pos h]

/-- Witness for C8 at a concrete input: a kick-user call with an empty
userId mutates nothing and emits nothing. -/
theorem missing_field_no_event_no_mutation_witness :
    joinProject exStore [exAliceSocket] "s1" exAlice "" = ([exAliceSocket], []) ∧
    kickUser exStore [exAliceSocket] "s1" exAlice "p1" "" = ([exAliceSocket], []) :=
  ⟨(missing_field_no_event_no_mutation exStore [exAliceSocket] "s1" exAlice "p1" "").1,
   (missing_field_no_event_no_mutation exStore [exAliceSocket] "s1" exAlice "p1" "").2
     (Or.inr rfl)⟩

/-- C10: with includeCollections absent or empty, collectionsWithHooks
returns every collection config unchanged (no afterChange or afterDelete
hook is attached, so no document change can ever reach emitEvent); with a
non-empty list, any collection whose slug is not in the list is likewise
returned unchanged. -/
theorem collectionsWithHooks_gating (collections : List CollectionConfig)
    (l : List String) :
    collectionsWithHooks none collections = collections ∧
    collectionsWithHooks (some []) collections = collections ∧
    (collectionsWithHooks (some l) collections).length = collections.length ∧
    (∀ (i : Nat) (hi : i < collections.length)
        (hi2 : i < (collectionsWithHooks (some l) collections).length),
      (collections.get ⟨i, hi⟩).slug ∉ l →
      (collectionsWithHooks (some l) collections).get ⟨i, hi2⟩ =
        collections.get ⟨i, hi⟩) := by
  refine ⟨?_, ?_, ?_, ?_⟩
  · unfold collectionsWithHooks
    simp [shouldEmitForCollection]
  · unfold collectionsWithHooks
    simp [shouldEmitForCollection]
  · unfold collectionsWithHooks
    simp
  · intro i hi hi2 hnot
    unfold collectionsWithHooks
    simp only [List.get_eq_getElem, List.getElem_map]
    rw [if_neg]
    simp only [shouldEmitForCollection]
    intro hcond
    by_cases hl : l.length > 0
    · rw [if_pos hl] at hcond
      exact hnot (of_decide_eq_true hcond)
    · rw [if_neg hl] at hcond
      exact Bool.false_ne_true hcond

/-- Witness for C10 at a concrete input: with includeCollections equal to
the one-element list posts, a collection with slug pages keeps its config
unchanged. -/
theorem collectionsWithHooks_gating_witness :
    (collectionsWithHooks none [⟨"pages", [], []⟩] = [⟨"pages", [], []⟩]) ∧
    (collectionsWithHooks (some ["posts"]) [⟨"pages", [], []⟩]).get
        ⟨0, by decide⟩ = (⟨"pages", [], []⟩ : CollectionConfig) := by
  refine ⟨(collectionsWithHooks_gating [⟨"pages", [], []⟩] ["posts"]).1, ?_⟩
  have h := (collectionsWithHooks_gating [⟨"pages", [], []⟩] ["posts"]).2.2.2
    0 (by decide) (by decide) (by decide)
  simpa using h

/-- C2 counterexample: alice owns project p1 and issues the kick as its
owner, but no connection of bob is in the p1 room; the handler answers with
a kick-error (user not found in project) and no kick-success event, so the
owner branch of the claim ("the caller receives a kick-success event") is
false at this input. -/
theorem kickUser_no_match_counterexample :
    exStore.projectOwner "p1" = some exAlice.id ∧
    (kickUser exStore [exAliceSocket] "s1" exAlice "p1" "bob").2 =
      [⟨EmitTarget.socket "s1", "kick-error",
        EmitPayload.errMsg "User not found in project"⟩] ∧
    ∀ em ∈ (kickUser exStore [exAliceSocket] "s1" exAlice "p1" "bob").2,
      em.name ≠ "kick-success" := by
  refine ⟨by decide, by decide, by decide⟩

/-- C2 amended: with the owner re-read from the store on this call, a
non-owner caller changes no membership and receives kick-error; an owner
caller removes every connection in the project room whose identity id
equals the target from that room, each such connection receives a
kicked-from-project notice, and the caller receives kick-success when at
least one such connection existed and kick-error (user not found) with
membership unchanged otherwise. -/
theorem kickUser_spec (store : Store) (sockets : List SMSocket)
    (callerSid : String) (callerUser : SMUser) (pid uid ownerId : String)
    (hpid : pid ≠ "") (huid : uid ≠ "")
    (hown : store.projectOwner pid = some ownerId)
    (hnodup : ∀ s ∈ sockets, s.rooms.Nodup) :
    (callerUser.id ≠ ownerId →
      kickUser store sockets callerSid callerUser pid uid =
        (sockets,
          [⟨EmitTarget.socket callerSid, "kick-error",
            EmitPayload.errMsg "Only the project owner can kick users"⟩])) ∧
    (callerUser.id = ownerId →
      (kickTargets sockets (projectRoom pid) uid = [] →
        kickUser store sockets callerSid callerUser pid uid =
          (sockets,
            [⟨EmitTarget.socket callerSid, "kick-error",
              EmitPayload.errMsg "User not found in project"⟩])) ∧
      (kickTargets sockets (projectRoom pid) uid ≠ [] →
        (∀ s ∈ kickTargets sockets (projectRoom pid) uid,
          (⟨EmitTarget.socket s.sid, "kicked-from-project",
            EmitPayload.kickedFromProject pid
              "You have been removed from this project by the owner"⟩ : Emission) ∈
            (kickUser store sockets callerSid callerUser pid uid).2) ∧
        ((⟨EmitTarget.socket callerSid, "kick-success",
            EmitPayload.kickSuccess uid⟩ : Emission) ∈
          (kickUser store sockets callerSid callerUser pid uid).2) ∧
        (∀ s2 ∈ (kickUser store sockets callerSid callerUser pid uid).1,
          isKickTarget uid s2 = true → inRoom (projectRoom pid) s2 = false) ∧
        (∀ s ∈ sockets,
          ¬(inRoom (projectRoom pid) s = true ∧ isKickTarget uid s = true) →
          s ∈ (kickUser store sockets callerSid callerUser pid uid).1))) := by
  have hguard : ¬(pid = "" ∨ uid = "") := by
    rintro (h | h)
    exacts [hpid h, huid h]
  constructor
  · intro hne
    unfold kickUser
    simp only [if_neg hguard, hown]
    rw [if_pos hne]
  · intro heq
    constructor
    · intro hemp
      unfold kickUser
      simp only [if_neg hguard, hown]
      rw [if_neg (not_not_intro heq), if_neg (not_not_intro hemp)]
    · intro hne
      unfold kickUser
      simp only [if_neg hguard, hown]
      rw [if_neg (not_not_intro heq), if_pos hne]
      refine ⟨?_, ?_, ?_, ?_⟩
      · intro s hs
        apply List.mem_append_left
        exact List.mem_map_of_mem _ hs
      · apply List.mem_append_right
        simp
      · intro s2 hs2 htar
        rcases List.mem_map.mp hs2 with ⟨s, hs, rfl⟩
        by_cases hc : inRoom (projectRoom pid) s = true ∧ isKickTarget uid s = true
        · rw [if_pos hc]
          simp [inRoom, (hnodup s hs).not_mem_erase]
        · rw [if_neg hc] at htar ⊢
          cases h2 : inRoom (projectRoom pid) s
          · rfl
          · exact absurd ⟨h2, htar⟩ hc
      · intro s hs hnc
        refine List.mem_map.mpr ⟨s, hs, ?_⟩
        rw [if_neg hnc]

/-- Witness for C2 at a concrete input: alice owns p1 and kicks bob, who
has two connections in the p1 room; the caller receives kick-success. -/
theorem kickUser_spec_witness :
    (⟨EmitTarget.socket "s1", "kick-success",
      EmitPayload.kickSuccess "bob"⟩ : Emission) ∈
      (kickUser exStore [exAliceSocket, exBobSocket, exBobSocket2] "s1"
        exAlice "p1" "bob").2 :=
  (((kickUser_spec exStore [exAliceSocket, exBobSocket, exBobSocket2] "s1"
      exAlice "p1" "bob" "alice" (by decide) (by decide) (by decide)
      (by decide)).2 rfl).2 (by decide)).2.1

end PayloadSocket
